import Mathlib

namespace GoLiteKit

/-!
Verification of the GoLiteKit request-execution core against its
natural-language specification.

The definitions below are shallow embeddings of the Go sources:
* `TW`/`tstep`/`trun` embed `timeoutResponseWriter` (src/errors.go), the
  "Guarded Output Sink" of the spec;
* `DW`/`dstep`/`drun` embed `deferredResponseWriter` (src/errors.go), the
  "Deferred/Buffering Sink";
* `errorHandlerEvents` embeds `ErrorHandlerMiddleware`
  (src/error_handler_middleware.go);
* `superviseSelect` embeds the outcome-arbitration `select` of
  `TimeoutMiddleware` (src/timeout_middleware.go);
* `copyFields`/`cloneController` embed the reflection-based cloner
  (src/controller.go, `copyFields` / `CloneController`).
-/

/-! ### Guarded Output Sink (`timeoutResponseWriter`, src/errors.go lines 111-190)

State is the mutable part of the Go struct: `isTimeout`, `isHeaderWritten`,
`statusCode`.  Effects on the wrapped `http.ResponseWriter` are recorded as an
event list: `wh` for `WriteHeader`, `wr` for `Write`, `hadd`/`hset` for header
mutation, `fl` for `Flush`. -/

/-- Events forwarded to the underlying connection writer. -/
inductive WEvent where
  | wh (code : Nat)
  | wr (b : String)
  | hadd (k v : String)
  | hset (k v : String)
  | fl
deriving DecidableEq, Repr

/-- Mutable state of `timeoutResponseWriter`. -/
structure TW where
  isTimeout : Bool
  isHeaderWritten : Bool
  statusCode : Nat
deriving DecidableEq, Repr

/-- Initial state built by `newTimeoutResponseWriter`: not timed out, header
not written, status 200. -/
def twInit : TW := ⟨false, false, 200⟩

/-- Operations of the guarded sink, as called by the handler worker and the
deadline-firing actor (the mutex serializes them, so a trace is a list). -/
inductive TOp where
  | write (b : String)
  | writeHeader (code : Nat)
  | markTimeout
  | flush
deriving DecidableEq, Repr

/-- Result of `timeoutResponseWriter.Write`: byte count or
`http.ErrHandlerTimeout`. -/
inductive WriteResult where
  | ok (n : Nat)
  | errHandlerTimeout
deriving DecidableEq, Repr

/-- One operation of `timeoutResponseWriter`, returning the new state and the
events forwarded to the underlying writer.  Mirrors `Write`, `WriteHeader`,
`markTimeout` and `Flush` in src/errors.go. -/
def tstep (s : TW) : TOp → TW × List WEvent
  | .write b =>
      if s.isTimeout then (s, [])
      else if s.isHeaderWritten then (s, [.wr b])
      else ({ s with isHeaderWritten := true, statusCode := 200 }, [.wh 200, .wr b])
  | .writeHeader code =>
      if s.isTimeout then (s, [])
      else if s.isHeaderWritten then (s, [])
      else ({ s with isHeaderWritten := true, statusCode := code }, [.wh code])
  | .markTimeout => ({ s with isTimeout := true }, [])
  | .flush =>
      if s.isTimeout then (s, []) else (s, [.fl])

/-- Return value of `Write` in state `s` (the Go method returns
`(0, http.ErrHandlerTimeout)` once timed out, else the byte count). -/
def twriteRes (s : TW) (b : String) : WriteResult :=
  if s.isTimeout then .errHandlerTimeout else .ok b.length

/-- Run a trace of guarded-sink operations, accumulating forwarded events. -/
def trun (s : TW) : List TOp → TW × List WEvent
  | [] => (s, [])
  | op :: rest =>
      let r1 := tstep s op
      let r2 := trun r1.1 rest
      (r2.1, r1.2 ++ r2.2)

/-! ### Deferred/Buffering Sink (`deferredResponseWriter`, src/errors.go lines 192-316)

State mirrors the Go struct fields `buffer`, `header`, `statusCode`,
`isCommitted`, `isHeaderWritten`.  The buffered header map is modelled as an
append list of key/value entries (Commit replays them with `Header().Add`). -/

/-- Mutable state of `deferredResponseWriter`. -/
structure DW where
  buffer : String
  header : List (String × String)
  statusCode : Nat
  isCommitted : Bool
  isHeaderWritten : Bool
deriving DecidableEq, Repr

/-- Initial state built by `newDeferredResponseWriter`: empty buffer, fresh
header map, status 200. -/
def dwInit : DW := ⟨"", [], 200, false, false⟩

/-- Operations of the deferred sink.  `headerAdd` models an `Add` on the map
returned by `Header()`; `commit` and `reset` are the middleware-side calls. -/
inductive DOp where
  | write (b : String)
  | writeHeader (code : Nat)
  | headerAdd (k v : String)
  | commit
  | reset
  | flush
deriving DecidableEq, Repr

/-- One operation of `deferredResponseWriter`, returning the new state and
the events that reach the underlying connection writer.  Mirrors `Write`,
`WriteHeader`, `Header`, `Commit`, `Reset` and `Flush` in src/errors.go:
uncommitted writes land in the buffer, `Commit` replays buffered headers,
status and body, and `Reset` restores the initial state (including clearing
`isCommitted`). -/
def dstep (s : DW) : DOp → DW × List WEvent
  | .write b =>
      if s.isCommitted then (s, [.wr b])
      else ({ s with buffer := s.buffer ++ b }, [])
  | .writeHeader code =>
      if s.isHeaderWritten then (s, [])
      else ({ s with isHeaderWritten := true, statusCode := code }, [])
  | .headerAdd k v =>
      if s.isCommitted then (s, [.hadd k v])
      else ({ s with header := s.header ++ [(k, v)] }, [])
  | .commit =>
      if s.isCommitted then (s, [])
      else ({ s with isCommitted := true },
        s.header.map (fun kv => WEvent.hadd kv.1 kv.2) ++ [.wh s.statusCode, .wr s.buffer])
  | .reset => (dwInit, [])
  | .flush =>
      if s.isCommitted then (s, [.fl]) else (s, [])

/-- Which header map `deferredResponseWriter.Header` hands out. -/
inductive HeaderSel where
  | underlying
  | buffered
deriving DecidableEq, Repr

/-- Selector of `deferredResponseWriter.Header` (src/errors.go lines
210-219): the live map of the wrapped writer once committed, the buffered
map before that. -/
def dheaderSel (s : DW) : HeaderSel :=
  if s.isCommitted then .underlying else .buffered

/-- Run a trace of deferred-sink operations, accumulating events that reach
the underlying connection. -/
def drun (s : DW) : List DOp → DW × List WEvent
  | [] => (s, [])
  | op :: rest =>
      let r1 := dstep s op
      let r2 := drun r1.1 rest
      (r2.1, r1.2 ++ r2.2)

/-! ### Request-Scoped State and the error-interception stage
(`ErrorHandlerMiddleware`, src/error_handler_middleware.go; `SetError` /
`GetError` on the per-request `Context`). -/

/-- An `*AppError` as stored in the request-scoped error slot
(src/errors.go lines 8-12; the wrapped cause does not influence the wire
response and is omitted). -/
structure AppErr where
  code : Nat
  msg : String
deriving DecidableEq, Repr

/-- Operations the wrapped handler chain can perform on the sink it is
handed: exactly the `http.ResponseWriter` surface (`Write`, `WriteHeader`,
`Header().Add`).  `Commit` and `Reset` are not part of that surface; only
the middleware itself calls them. -/
inductive HOp where
  | write (b : String)
  | writeHeader (code : Nat)
  | headerAdd (k v : String)
deriving DecidableEq, Repr

/-- Inclusion of the handler-visible operations into deferred-sink
operations. -/
def HOp.toDOp : HOp → DOp
  | .write b => .write b
  | .writeHeader code => .writeHeader code
  | .headerAdd k v => .headerAdd k v

/-- Model of `json.NewEncoder(w).Encode(Response{Status, Msg, LogID})` for
the unified `Response` shape (status, msg, optional logid; the `Data` field
is nil and omitted).  `Encode` terminates the document with a newline. -/
def encodeResponse (status : Nat) (msg logID : String) : String :=
  "\x7b\"status\":" ++ toString status ++ ",\"msg\":\"" ++ msg ++ "\"" ++
    (if logID = "" then "" else ",\"logid\":\"" ++ logID ++ "\"") ++ "\x7d\n"

/-- Events `handleAppError`/`defaultErrorFormatter` emit on the real
connection writer (src/error_handler_middleware.go lines 107-134): set the
JSON content type, write the error's status code, encode the unified
response body. -/
def appErrorResponse (e : AppErr) (logID : String) : List WEvent :=
  [.hset "Content-Type" "application/json; charset=utf-8",
   .wh e.code,
   .wr (encodeResponse e.code e.msg logID)]

/-- Events `handlePanic` emits on the real connection writer
(src/error_handler_middleware.go lines 77-104): a generic 500 response whose
body mentions only the fixed message and the log id, never the recovered
value. -/
def handlePanicResponse (logID : String) : List WEvent :=
  [.hset "Content-Type" "application/json; charset=utf-8",
   .wh 500,
   .wr (encodeResponse 500 "Internal Server Error" logID)]

/-- Embedding of `ErrorHandlerMiddleware` (src/error_handler_middleware.go
lines 44-74) for a handler chain that returns normally: the chain runs
against a fresh deferred writer `dw` performing `hops` and leaving `herr` in
the request-scoped error slot; afterwards the middleware inspects the slot
and either resets `dw` and writes the error response directly to the
connection, or commits `dw`.  The result is the full event stream reaching
the underlying connection. -/
def errorHandlerEvents (hops : List HOp) (herr : Option AppErr)
    (logID : String) : List WEvent :=
  let r := drun dwInit (hops.map HOp.toDOp)
  match herr with
  | some e => r.2 ++ (dstep r.1 .reset).2 ++ appErrorResponse e logID
  | none => r.2 ++ (dstep r.1 .commit).2

/-! ### Timeout Supervisor (`TimeoutMiddleware`, src/timeout_middleware.go)

The middleware races the handler worker against the request deadline and
arbitrates with a `select` (lines 59-67).  `superviseSelect` embeds what each
arm of that `select` does to the per-request state: the panic arm and the
deadline arm only emit a log line; no arm touches any response writer and no
arm stores anything in the request-scoped error slot. -/

/-- Per-request state visible to the supervisor: the request's guarded sink,
the request-scoped error slot, and the process log. -/
structure ReqState where
  sink : TW
  errorSlot : Option AppErr
  logs : List String
deriving DecidableEq, Repr

/-- Outcome of the race between the handler worker, the deadline timer and a
worker panic (first to resolve wins). -/
inductive SupOutcome where
  | panicked (v : String)
  | timedOut
  | completed
deriving DecidableEq, Repr

/-- Embedding of the supervisor's arbitration `select`
(src/timeout_middleware.go lines 59-67): on a worker panic it logs the
recovered value, on deadline expiry it logs the cancellation cause, on
completion it returns; nothing else is touched. -/
def superviseSelect (s : ReqState) : SupOutcome → ReqState
  | .panicked v => { s with logs := s.logs ++ [v] }
  | .timedOut => { s with logs := s.logs ++ ["request canceled: request timeout after WriteTimeout"] }
  | .completed => s

/-! ### Handler panic under timeout supervision

With the default stack (src/server.go lines 57-69)
`ErrorHandlerMiddleware` is outermost and `TimeoutMiddleware` runs inside
it.  When the per-request timeout is positive the handler runs on a separate
worker goroutine (src/timeout_middleware.go lines 29-57); a panic there is
recovered by the worker itself, reported once to the panic logger, and sent
to `panicChan`; the supervising goroutine merely logs it and `ServeHTTP`
returns normally.  The panic therefore never propagates to
`ErrorHandlerMiddleware`'s deferred `recover`, which proceeds on the
no-error path and commits the buffered output. -/

/-- Embedding of the full pipeline for a supervised request whose handler
performs `hops` on the deferred writer and then panics with value `v`:
the event stream reaching the connection, paired with the number of reports
made to the panic-log collaborator.  The recovered value `v` is consumed by
the worker's recover (one `Report`) and the supervisor's log; control then
returns normally to `ErrorHandlerMiddleware`, which finds no recorded error
and commits. -/
def supervisedPanicPipeline (hops : List HOp) (_v : String) : List WEvent × Nat :=
  let r := drun dwInit (hops.map HOp.toDOp)
  (r.2 ++ (dstep r.1 .commit).2, 1)

/-! ### Handler Template Cloner (`CloneController` / `copyFields`,
src/controller.go lines 571-634)

Go values reachable from a controller are modelled as trees.  Pointers,
channels and functions carry a numeric identity: two values holding the same
identity alias the same runtime object, so a tree-copy that preserves an
identity models reference sharing, while a copy that introduces a fresh
identity models `reflect.New` allocation.  A pointer node carries its
referent inline; a write through a pointer with identity `i` is modelled by
`substPtr i`, which updates the referent of every alias of `i`
simultaneously.  Struct fields carry their exported flag, because
`reflect.Value.CanSet` is false exactly on unexported fields. -/

mutual
/-- A Go runtime value, by reflection kind. -/
inductive GoVal where
  | int (n : Int)
  | str (s : String)
  | bool (b : Bool)
  | strukt (fields : GoFields)
  | ptrNil
  | ptr (id : Nat) (target : GoVal)
  | sliceNil
  | slice (elems : GoList)
  | mapNil
  | gmap (entries : GoEntries)
  | arr (elems : GoList)
  | chanNil
  | chanV (id : Nat)
  | fnNil
  | fnV (id : Nat)
  | ifaceNil
  | iface (inner : GoVal)
deriving DecidableEq, Repr

/-- Field list of a struct value; each field records whether it is exported. -/
inductive GoFields where
  | nil
  | cons (exported : Bool) (v : GoVal) (rest : GoFields)
deriving DecidableEq, Repr

/-- Element list of a slice or array value. -/
inductive GoList where
  | nil
  | cons (v : GoVal) (rest : GoList)
deriving DecidableEq, Repr

/-- Entry list of a map value. -/
inductive GoEntries where
  | nil
  | cons (k v : GoVal) (rest : GoEntries)
deriving DecidableEq, Repr
end

mutual
/-- Zero value of the same type as the given value, as produced by
`reflect.New(t).Elem()`: zero scalars, nil references, zero-filled structs
and arrays. -/
def zeroOf : GoVal → GoVal
  | .int _ => .int 0
  | .str _ => .str ""
  | .bool _ => .bool false
  | .strukt fs => .strukt (zeroFields fs)
  | .ptrNil => .ptrNil
  | .ptr _ _ => .ptrNil
  | .sliceNil => .sliceNil
  | .slice _ => .sliceNil
  | .mapNil => .mapNil
  | .gmap _ => .mapNil
  | .arr es => .arr (zeroList es)
  | .chanNil => .chanNil
  | .chanV _ => .chanNil
  | .fnNil => .fnNil
  | .fnV _ => .fnNil
  | .ifaceNil => .ifaceNil
  | .iface _ => .ifaceNil

def zeroFields : GoFields → GoFields
  | .nil => .nil
  | .cons ex v rest => .cons ex (zeroOf v) (zeroFields rest)

def zeroList : GoList → GoList
  | .nil => .nil
  | .cons v rest => .cons (zeroOf v) (zeroList rest)
end

/-- Runtime panic raised by the reflection code: `reflect.Value.NumField`
panics when invoked on a non-struct value. -/
inductive GoPanic where
  | numFieldNonStruct
deriving DecidableEq, Repr

mutual
/-- Embedding of `copyFields(src, dst)` (src/controller.go lines 584-634).
The destination is always the zero value of the source's type at every call
site (`reflect.New(...).Elem()` / `MakeSlice` / fresh map entries), so the
result is computed from the source alone.  The counter `c` supplies fresh
identities for `reflect.New` allocations.  The Go loop starts with
`src.NumField()`, which panics unless `src` is a struct. -/
def copyFields (c : Nat) : GoVal → Except GoPanic (Nat × GoVal)
  | .strukt fs =>
      match copyFieldsList c fs with
      | .error p => .error p
      | .ok (c', fs') => .ok (c', .strukt fs')
  | _ => .error .numFieldNonStruct

/-- Per-field loop of `copyFields`: an unexported field fails the `CanSet`
guard and is skipped, leaving the destination field at its zero value. -/
def copyFieldsList (c : Nat) : GoFields → Except GoPanic (Nat × GoFields)
  | .nil => .ok (c, .nil)
  | .cons ex v rest =>
      if ex then
        match copyOneField c v with
        | .error p => .error p
        | .ok (c', v') =>
            match copyFieldsList c' rest with
            | .error p => .error p
            | .ok (c'', rest') => .ok (c'', .cons ex v' rest')
      else
        match copyFieldsList c rest with
        | .error p => .error p
        | .ok (c', rest') => .ok (c', .cons ex (zeroOf v) rest')

/-- Switch on `srcField.Kind()` inside the loop body of `copyFields`:
structs recurse; non-nil pointers allocate a fresh referent and recurse with
`copyFields` on the pointee; slices, maps and arrays recurse element-wise
with `copyFields` (so non-struct elements and keys hit the `NumField`
panic); nil references are skipped; a non-nil channel is assigned verbatim
(`dstField.Set(srcField)`); everything else — scalars, functions,
interfaces — falls to the default branch and is assigned verbatim. -/
def copyOneField (c : Nat) : GoVal → Except GoPanic (Nat × GoVal)
  | .strukt fs => copyFields c (.strukt fs)
  | .ptrNil => .ok (c, .ptrNil)
  | .ptr _ t =>
      match copyFields (c + 1) t with
      | .error p => .error p
      | .ok (c', t') => .ok (c', .ptr c t')
  | .sliceNil => .ok (c, .sliceNil)
  | .slice es =>
      match copyElems c es with
      | .error p => .error p
      | .ok (c', es') => .ok (c', .slice es')
  | .mapNil => .ok (c, .mapNil)
  | .gmap en =>
      match copyEntries c en with
      | .error p => .error p
      | .ok (c', en') => .ok (c', .gmap en')
  | .arr es =>
      match copyElems c es with
      | .error p => .error p
      | .ok (c', es') => .ok (c', .arr es')
  | .chanNil => .ok (c, .chanNil)
  | .chanV id => .ok (c, .chanV id)
  | v => .ok (c, v)

/-- Element loop of the slice and array cases: each element is copied with
`copyFields`. -/
def copyElems (c : Nat) : GoList → Except GoPanic (Nat × GoList)
  | .nil => .ok (c, .nil)
  | .cons v rest =>
      match copyFields c v with
      | .error p => .error p
      | .ok (c', v') =>
          match copyElems c' rest with
          | .error p => .error p
          | .ok (c'', rest') => .ok (c'', .cons v' rest')

/-- Entry loop of the map case: every key and every value is copied with
`copyFields`. -/
def copyEntries (c : Nat) : GoEntries → Except GoPanic (Nat × GoEntries)
  | .nil => .ok (c, .nil)
  | .cons k v rest =>
      match copyFields c k with
      | .error p => .error p
      | .ok (c1, k') =>
          match copyFields c1 v with
          | .error p => .error p
          | .ok (c2, v') =>
              match copyEntries c2 rest with
              | .error p => .error p
              | .ok (c3, rest') => .ok (c3, .cons k' v' rest')
end

/-- Embedding of `CloneController` (src/controller.go lines 571-582): a nil
controller clones to nil; otherwise a fresh instance of the same type is
allocated (fresh identity `c`) and `copyFields` fills it from the source. -/
def cloneController (c : Nat) : GoVal → Except GoPanic (Nat × Option GoVal)
  | .ptrNil => .ok (c, none)
  | .ptr _ t =>
      match copyFields (c + 1) t with
      | .error p => .error p
      | .ok (c', t') => .ok (c', some (.ptr c t'))
  | v =>
      match copyFields (c + 1) v with
      | .error p => .error p
      | .ok (c', v') => .ok (c', some (.ptr c v'))

mutual
/-- Effect, on a value, of a write through a pointer with identity `i`:
every alias of `i` now refers to `nv`.  This models mutating the referent of
a pointer reachable from a clone and observing the template. -/
def substPtr (i : Nat) (nv : GoVal) : GoVal → GoVal
  | .strukt fs => .strukt (substPtrFields i nv fs)
  | .ptr j t => .ptr j (if j = i then nv else substPtr i nv t)
  | .slice es => .slice (substPtrList i nv es)
  | .gmap en => .gmap (substPtrEntries i nv en)
  | .arr es => .arr (substPtrList i nv es)
  | .iface inner => .iface (substPtr i nv inner)
  | v => v

def substPtrFields (i : Nat) (nv : GoVal) : GoFields → GoFields
  | .nil => .nil
  | .cons ex v rest => .cons ex (substPtr i nv v) (substPtrFields i nv rest)

def substPtrList (i : Nat) (nv : GoVal) : GoList → GoList
  | .nil => .nil
  | .cons v rest => .cons (substPtr i nv v) (substPtrList i nv rest)

def substPtrEntries (i : Nat) (nv : GoVal) : GoEntries → GoEntries
  | .nil => .nil
  | .cons k v rest => .cons (substPtr i nv k) (substPtr i nv v) (substPtrEntries i nv rest)
end

/-- Handler template with one exported dynamically-typed field holding a
pointer (identity 5) to a struct whose exported field is 42 — the shape of
`InterfaceController{Data: &TestData{Value: 42}}` from the repository's
clone tests. -/
def ifaceTemplate : GoVal :=
  .strukt (.cons true (.iface (.ptr 5 (.strukt (.cons true (.int 42) .nil)))) .nil)

/-- Handler template with an exported string field and an exported live
channel field (identity 3) — the shape of `ChannelController{Name: "test",
Ch: make(chan int, 1)}` from the repository's clone tests. -/
def chanTemplate : GoVal :=
  .strukt (.cons true (.str "test") (.cons true (.chanV 3) .nil))

/-- Handler template with one exported ordered-sequence field whose elements
are scalars — the shape of `SliceController{Numbers: []int{1, 2, 3}}` from
the repository's clone tests. -/
def scalarSliceTemplate : GoVal :=
  .strukt (.cons true (.slice (.cons (.int 1) (.cons (.int 2) (.cons (.int 3) .nil)))) .nil)

/-- Handler template with one exported mapping field with a scalar key and a
scalar value — the shape of `MapController{SimpleMap: map[string]int{"a": 1}}`
from the repository's clone tests. -/
def scalarMapTemplate : GoVal :=
  .strukt (.cons true (.gmap (.cons (.str "a") (.int 1) .nil)) .nil)

mutual
/-- Check that the copied value `dst` has, at every position the cloner
structurally copied (struct nesting, fresh pointees, slice and array
elements, map entries), its unexported fields equal to the zero value of the
corresponding source field.  Positions the cloner assigns verbatim
(scalars, interfaces, channels, functions) carry no obligation. -/
def unexpZeroV : GoVal → GoVal → Bool
  | .strukt fs, .strukt fs' => unexpZeroF fs fs'
  | .ptr _ t, .ptr _ t' => unexpZeroV t t'
  | .slice es, .slice es' => unexpZeroL es es'
  | .gmap en, .gmap en' => unexpZeroE en en'
  | .arr es, .arr es' => unexpZeroL es es'
  | _, _ => true

def unexpZeroF : GoFields → GoFields → Bool
  | .nil, .nil => true
  | .cons ex v rest, .cons _ v' rest' =>
      (if ex then unexpZeroV v v' else decide (v' = zeroOf v)) && unexpZeroF rest rest'
  | _, _ => false

def unexpZeroL : GoList → GoList → Bool
  | .nil, .nil => true
  | .cons v rest, .cons v' rest' => unexpZeroV v v' && unexpZeroL rest rest'
  | _, _ => false

def unexpZeroE : GoEntries → GoEntries → Bool
  | .nil, .nil => true
  | .cons k v rest, .cons k' v' rest' =>
      unexpZeroV k k' && unexpZeroV v v' && unexpZeroE rest rest'
  | _, _ => false
end

/-- Handler template with an unexported scalar field (value 7) followed by
an exported scalar field, used to witness the unexported-field theorem. -/
def unexpTemplate : GoVal :=
  .strukt (.cons false (.int 7) (.cons true (.int 1) .nil))

/-! ### Theorems -/

theorem tstep_frozen (s : TW) (op : TOp) (h : s.isTimeout = true) :
    tstep s op = (s, []) := by
  cases s with
  | mk t hw sc =>
    cases t with
    | false => simp at h
    | true => cases op <;> simp [tstep]

theorem tstep_markTimeout_isTimeout (s : TW) :
    ((tstep s .markTimeout).1).isTimeout = true := rfl

theorem trun_frozen (s : TW) (h : s.isTimeout = true) (ops : List TOp) :
    trun s ops = (s, []) := by
  induction ops with
  | nil => rfl
  | cons op rest ih => simp [trun, tstep_frozen s op h, ih]

theorem trun_append (s : TW) (l1 l2 : List TOp) :
    trun s (l1 ++ l2) =
      ((trun (trun s l1).1 l2).1, (trun s l1).2 ++ (trun (trun s l1).1 l2).2) := by
  induction l1 generalizing s with
  | nil => simp [trun]
  | cons op rest ih => simp [trun, ih]

/-- C1: once `markTimeout` has run, the guarded sink is inert: any further
operations (writes, status sets, flushes, repeated `markTimeout`) change
neither the sink state nor the event stream forwarded to the underlying
connection, any `Write` issued in that state is rejected with
`http.ErrHandlerTimeout`, and a second `markTimeout` is indistinguishable
from the first. -/
theorem guarded_sink_timeout_terminal (ops1 ops2 : List TOp) :
    trun twInit (ops1 ++ .markTimeout :: ops2) = trun twInit (ops1 ++ [.markTimeout]) ∧
    (∀ b : String,
      twriteRes (trun twInit (ops1 ++ [.markTimeout])).1 b = .errHandlerTimeout) ∧
    trun twInit (ops1 ++ .markTimeout :: .markTimeout :: ops2) =
      trun twInit (ops1 ++ .markTimeout :: ops2) := by
  have key : ∀ tail : List TOp,
      trun (trun twInit ops1).1 (.markTimeout :: tail) =
        ((tstep (trun twInit ops1).1 .markTimeout).1, []) := by
    intro tail
    have hT := tstep_markTimeout_isTimeout (trun twInit ops1).1
    simp only [trun]
    rw [trun_frozen _ hT]
    simp [tstep]
  refine ⟨?_, ?_, ?_⟩
  · rw [trun_append, trun_append, key ops2, key []]
  · intro b
    rw [trun_append, key []]
    simp [twriteRes, tstep_markTimeout_isTimeout]
  · rw [trun_append, trun_append, key (TOp.markTimeout :: ops2), key ops2]

theorem dstep_keeps_committed (s : DW) (op : DOp) (hc : s.isCommitted = true)
    (hr : op ≠ .reset) : ((dstep s op).1).isCommitted = true := by
  cases op with
  | write b => simp [dstep, hc]
  | writeHeader code =>
    by_cases h : s.isHeaderWritten = true <;> simp [dstep, h, hc]
  | headerAdd k v => simp [dstep, hc]
  | commit => simp [dstep, hc]
  | reset => exact absurd rfl hr
  | flush => simp [dstep, hc]

/-- C8 counterexample: `Reset` clears `isCommitted` (src/errors.go line 272),
so after `commit, reset, write, commit` the second `commit` flushes buffered
state to the connection again — the `COMMITTED` state is not terminal across
a `reset`, contrary to the claim that no subsequent operation sequence can
cause a second flush. -/
theorem deferred_commit_not_terminal_across_reset :
    (dstep (drun dwInit [.write "a", .commit, .reset, .write "b"]).1 .commit).2 =
      [.wh 200, .wr "b"] ∧
    (dstep (drun dwInit [.write "a", .commit, .reset, .write "b"]).1 .commit).2 ≠
      ([] : List WEvent) := by
  constructor
  · rfl
  · intro h
    simp [drun, dstep, dwInit] at h

/-- C8 (amended): from a committed state, any operation sequence that does
not contain `reset` keeps the sink committed, and a further `commit` in that
committed state is an idempotent no-op (no state change, nothing flushed to
the connection).  `reset` is the one operation that returns the sink to
`BUFFERING` and re-enables a flush. -/
theorem deferred_commit_idempotent_until_reset (s : DW) (tr : List DOp)
    (hc : s.isCommitted = true) (hr : DOp.reset ∉ tr) :
    ((drun s tr).1).isCommitted = true ∧
    dstep (drun s tr).1 .commit = ((drun s tr).1, []) := by
  induction tr generalizing s with
  | nil =>
    refine ⟨hc, ?_⟩
    simp [drun, dstep, hc]
  | cons op rest ih =>
    have hop : op ≠ .reset := by
      intro h; exact hr (by simp [h])
    have hrest : DOp.reset ∉ rest := by
      intro h; exact hr (by simp [h])
    have hc1 := dstep_keeps_committed s op hc hop
    have := ih (dstep s op).1 hc1 hrest
    simpa [drun] using this

/-- Witness for `deferred_commit_idempotent_until_reset` at a concrete
committed state and a concrete reset-free trace. -/
theorem deferred_commit_idempotent_until_reset_witness :
    ((drun ⟨"a", [], 200, true, true⟩ [DOp.write "b", DOp.commit]).1).isCommitted = true ∧
    dstep (drun ⟨"a", [], 200, true, true⟩ [DOp.write "b", DOp.commit]).1 .commit =
      ((drun ⟨"a", [], 200, true, true⟩ [DOp.write "b", DOp.commit]).1, []) :=
  deferred_commit_idempotent_until_reset ⟨"a", [], 200, true, true⟩
    [DOp.write "b", DOp.commit] rfl (by simp)

/-- C10: once `Commit` has run, the deferred sink no longer guards or
buffers: a `Write` is forwarded directly to the underlying connection writer
(neither buffered nor rejected, state unchanged), and `Header` returns the
underlying writer's live header map instead of the buffered one. -/
theorem deferred_passthrough_after_commit (s : DW) (b : String)
    (hc : s.isCommitted = true) :
    dstep s (.write b) = (s, [.wr b]) ∧ dheaderSel s = .underlying := by
  simp [dstep, dheaderSel, hc]

/-- Witness for `deferred_passthrough_after_commit` at a concrete committed
state. -/
theorem deferred_passthrough_after_commit_witness :
    dstep ⟨"x", [("a", "b")], 201, true, true⟩ (.write "late") =
      (⟨"x", [("a", "b")], 201, true, true⟩, [.wr "late"]) ∧
    dheaderSel ⟨"x", [("a", "b")], 201, true, true⟩ = .underlying :=
  deferred_passthrough_after_commit ⟨"x", [("a", "b")], 201, true, true⟩ "late" rfl

theorem drun_hops_buffered (s : DW) (hc : s.isCommitted = false)
    (hops : List HOp) :
    (drun s (hops.map HOp.toDOp)).2 = [] ∧
    ((drun s (hops.map HOp.toDOp)).1).isCommitted = false := by
  induction hops generalizing s with
  | nil => exact ⟨rfl, hc⟩
  | cons op rest ih =>
    cases op with
    | write b =>
      have := ih { s with buffer := s.buffer ++ b } hc
      simpa [drun, HOp.toDOp, dstep, hc] using this
    | writeHeader code =>
      by_cases h : s.isHeaderWritten = true
      · have := ih s hc
        simpa [drun, HOp.toDOp, dstep, h] using this
      · have := ih { s with isHeaderWritten := true, statusCode := code } hc
        simpa [drun, HOp.toDOp, dstep, h] using this
    | headerAdd k v =>
      have := ih { s with header := s.header ++ [(k, v)] } hc
      simpa [drun, HOp.toDOp, dstep, hc] using this

/-- C6: whatever the handler chain wrote, if an error is recorded in the
request-scoped slot the connection receives exactly the error response built
from that error — the buffered output is reset and no buffered byte reaches
the wire; if no error is recorded, the connection receives exactly the
buffered headers, the buffered status and the buffered body via `Commit`. -/
theorem error_interception_decides_response (hops : List HOp) (e : AppErr)
    (logID : String) :
    errorHandlerEvents hops (some e) logID = appErrorResponse e logID ∧
    errorHandlerEvents hops none logID =
      ((drun dwInit (hops.map HOp.toDOp)).1.header.map
          (fun kv => WEvent.hadd kv.1 kv.2)) ++
        [.wh (drun dwInit (hops.map HOp.toDOp)).1.statusCode,
         .wr (drun dwInit (hops.map HOp.toDOp)).1.buffer] := by
  have h := drun_hops_buffered dwInit rfl hops
  constructor
  · simp [errorHandlerEvents, h.1, dstep]
  · simp [errorHandlerEvents, h.1, dstep, h.2]

/-- C2 evaluation: when the deadline fires (the TIMED-OUT outcome) the
supervisor leaves the guarded sink and the request-scoped error slot exactly
as they were; in particular, starting from a fresh request the sink is still
not timed out and the error slot is still empty when the error-interception
stage later inspects it.  The claim requires `markTimeout` to have been
called and a timeout error to have been recorded; the code does neither. -/
theorem timeout_supervisor_marks_nothing :
    (∀ s : ReqState, (superviseSelect s .timedOut).sink = s.sink ∧
      (superviseSelect s .timedOut).errorSlot = s.errorSlot) ∧
    ((superviseSelect ⟨twInit, none, []⟩ .timedOut).sink).isTimeout = false ∧
    (superviseSelect ⟨twInit, none, []⟩ .timedOut).errorSlot = none := by
  refine ⟨fun s => ⟨rfl, rfl⟩, rfl, rfl⟩

/-- C7 evaluation: a supervised handler that panics with `"boom"` before
writing anything yields a committed empty 200 response on the wire — not the
generic 500 internal-error response `handlePanic` would produce — even
though the panic is reported once.  The wire response differs from the
claimed generic internal-error response. -/
theorem supervised_panic_commits_success :
    supervisedPanicPipeline [] "boom" = ([.wh 200, .wr ""], 1) ∧
    ([WEvent.wh 200, WEvent.wr ""] ≠ handlePanicResponse "") := by
  constructor
  · rfl
  · intro h
    simp [handlePanicResponse] at h

/-- C3 evaluation: cloning a template whose dynamically-typed field holds a
pointer yields a clone whose field is the very same interface value — same
pointer identity 5, nothing unwrapped, deep-copied or re-wrapped (the
`reflect.Interface` kind falls into `copyFields`' default
`dstField.Set(srcField)` branch, src/controller.go lines 630-631).  A write
through that shared pointer (`substPtr 5`) therefore changes what the
template dereferences: mutating the clone's field does not leave the
template unchanged. -/
theorem clone_shares_dynamically_typed_field :
    cloneController 100 (.ptr 9 ifaceTemplate) =
      .ok (101, some (.ptr 100 ifaceTemplate)) ∧
    substPtr 5 (.strukt (.cons true (.int 77) .nil)) ifaceTemplate =
      .strukt (.cons true (.iface (.ptr 5 (.strukt (.cons true (.int 77) .nil)))) .nil) ∧
    substPtr 5 (.strukt (.cons true (.int 77) .nil)) ifaceTemplate ≠ ifaceTemplate := by
  refine ⟨?_, ?_, ?_⟩
  · simp [cloneController, copyFields, copyFieldsList, copyOneField, ifaceTemplate]
  · simp [substPtr, substPtrFields, ifaceTemplate]
  · intro h
    simp [substPtr, substPtrFields, ifaceTemplate] at h

/-- C4 evaluation: cloning a template with a live (non-nil) channel field
copies the channel reference verbatim (`dstField.Set(srcField)` in the
`reflect.Chan` case, src/controller.go lines 625-629): the clone's field is
the same channel (identity 3), not nil, so template and clone share the live
endpoint — while the repository's own test
(`TestCloneController_ChannelSkipped`) and the spec require the clone's
field to be nil. -/
theorem clone_shares_live_channel :
    cloneController 0 (.ptr 9 chanTemplate) = .ok (1, some (.ptr 0 chanTemplate)) ∧
    (GoVal.chanV 3 ≠ GoVal.chanNil) := by
  refine ⟨?_, ?_⟩
  · simp [cloneController, copyFields, copyFieldsList, copyOneField, chanTemplate]
  · intro h
    exact GoVal.noConfusion h

/-- C5 evaluation: cloning a template with a non-nil slice of scalars (and
likewise a non-nil map with scalar keys) does not return normally: the slice
and map cases of `copyFields` recurse with `copyFields` itself on every
element and key (src/controller.go lines 601-620), whose first action is
`src.NumField()` — a reflection panic on any non-struct value.  No fresh
sequence of equal length is ever produced. -/
theorem clone_panics_on_scalar_elements :
    cloneController 0 (.ptr 9 scalarSliceTemplate) = .error .numFieldNonStruct ∧
    cloneController 0 (.ptr 9 scalarMapTemplate) = .error .numFieldNonStruct := by
  constructor
  · simp [cloneController, copyFields, copyFieldsList, copyOneField, copyElems,
      scalarSliceTemplate]
  · simp [cloneController, copyFields, copyFieldsList, copyOneField, copyEntries,
      scalarMapTemplate]

mutual
theorem copyFields_unexpZero (c : Nat) (src : GoVal) (c' : Nat) (dst : GoVal)
    (h : copyFields c src = .ok (c', dst)) : unexpZeroV src dst = true := by
  cases src with
  | strukt fs =>
    cases hm : copyFieldsList c fs with
    | error p => simp [copyFields, hm] at h
    | ok r =>
      simp [copyFields, hm] at h
      cases h.2
      simp only [unexpZeroV]
      exact copyFieldsList_unexpZero c fs r.1 r.2 (by rw [hm])
  | int n => simp [copyFields] at h
  | str s => simp [copyFields] at h
  | bool b => simp [copyFields] at h
  | ptrNil => simp [copyFields] at h
  | ptr i t => simp [copyFields] at h
  | sliceNil => simp [copyFields] at h
  | slice es => simp [copyFields] at h
  | mapNil => simp [copyFields] at h
  | gmap en => simp [copyFields] at h
  | arr es => simp [copyFields] at h
  | chanNil => simp [copyFields] at h
  | chanV i => simp [copyFields] at h
  | fnNil => simp [copyFields] at h
  | fnV i => simp [copyFields] at h
  | ifaceNil => simp [copyFields] at h
  | iface inner => simp [copyFields] at h

theorem copyFieldsList_unexpZero (c : Nat) (fs : GoFields) (c' : Nat)
    (fs' : GoFields) (h : copyFieldsList c fs = .ok (c', fs')) :
    unexpZeroF fs fs' = true := by
  cases fs with
  | nil =>
    simp [copyFieldsList] at h
    cases h.2
    simp [unexpZeroF]
  | cons ex v rest =>
    by_cases hex : ex
    · subst hex
      cases h1 : copyOneField c v with
      | error p => simp [copyFieldsList, h1] at h
      | ok r1 =>
        cases h2 : copyFieldsList r1.1 rest with
        | error p => simp [copyFieldsList, h1, h2] at h
        | ok r2 =>
          simp [copyFieldsList, h1, h2] at h
          cases h.2
          have hv := copyOneField_unexpZero c v r1.1 r1.2 (by rw [h1])
          have hr := copyFieldsList_unexpZero r1.1 rest r2.1 r2.2 (by rw [h2])
          simp [unexpZeroF, hv, hr]
    · simp only [Bool.not_eq_true] at hex
      subst hex
      cases h2 : copyFieldsList c rest with
      | error p => simp [copyFieldsList, h2] at h
      | ok r2 =>
        simp [copyFieldsList, h2] at h
        cases h.2
        have hr := copyFieldsList_unexpZero c rest r2.1 r2.2 (by rw [h2])
        simp [unexpZeroF, hr]

theorem copyOneField_unexpZero (c : Nat) (v : GoVal) (c' : Nat) (v' : GoVal)
    (h : copyOneField c v = .ok (c', v')) : unexpZeroV v v' = true := by
  cases v with
  | strukt fs =>
    cases hm : copyFieldsList c fs with
    | error p => simp [copyOneField, copyFields, hm] at h
    | ok r =>
      simp [copyOneField, copyFields, hm] at h
      cases h.2
      simp only [unexpZeroV]
      exact copyFieldsList_unexpZero c fs r.1 r.2 (by rw [hm])
  | ptrNil =>
    simp [copyOneField] at h
    cases h.2
    simp [unexpZeroV]
  | ptr i t =>
    cases hm : copyFields (c + 1) t with
    | error p => simp [copyOneField, hm] at h
    | ok r =>
      simp [copyOneField, hm] at h
      cases h.2
      simp only [unexpZeroV]
      exact copyFields_unexpZero (c + 1) t r.1 r.2 (by rw [hm])
  | sliceNil =>
    simp [copyOneField] at h
    cases h.2
    simp [unexpZeroV]
  | slice es =>
    cases hm : copyElems c es with
    | error p => simp [copyOneField, hm] at h
    | ok r =>
      simp [copyOneField, hm] at h
      cases h.2
      simp only [unexpZeroV]
      exact copyElems_unexpZero c es r.1 r.2 (by rw [hm])
  | mapNil =>
    simp [copyOneField] at h
    cases h.2
    simp [unexpZeroV]
  | gmap en =>
    cases hm : copyEntries c en with
    | error p => simp [copyOneField, hm] at h
    | ok r =>
      simp [copyOneField, hm] at h
      cases h.2
      simp only [unexpZeroV]
      exact copyEntries_unexpZero c en r.1 r.2 (by rw [hm])
  | arr es =>
    cases hm : copyElems c es with
    | error p => simp [copyOneField, hm] at h
    | ok r =>
      simp [copyOneField, hm] at h
      cases h.2
      simp only [unexpZeroV]
      exact copyElems_unexpZero c es r.1 r.2 (by rw [hm])
  | chanNil => simp [copyOneField] at h; cases h.2; simp [unexpZeroV]
  | chanV i => simp [copyOneField] at h; cases h.2; simp [unexpZeroV]
  | int n => simp [copyOneField] at h; cases h.2; simp [unexpZeroV]
  | str s => simp [copyOneField] at h; cases h.2; simp [unexpZeroV]
  | bool b => simp [copyOneField] at h; cases h.2; simp [unexpZeroV]
  | fnNil => simp [copyOneField] at h; cases h.2; simp [unexpZeroV]
  | fnV i => simp [copyOneField] at h; cases h.2; simp [unexpZeroV]
  | ifaceNil => simp [copyOneField] at h; cases h.2; simp [unexpZeroV]
  | iface inner => simp [copyOneField] at h; cases h.2; simp [unexpZeroV]

theorem copyElems_unexpZero (c : Nat) (es : GoList) (c' : Nat) (es' : GoList)
    (h : copyElems c es = .ok (c', es')) : unexpZeroL es es' = true := by
  cases es with
  | nil =>
    simp [copyElems] at h
    cases h.2
    simp [unexpZeroL]
  | cons v rest =>
    cases h1 : copyFields c v with
    | error p => simp [copyElems, h1] at h
    | ok r1 =>
      cases h2 : copyElems r1.1 rest with
      | error p => simp [copyElems, h1, h2] at h
      | ok r2 =>
        simp [copyElems, h1, h2] at h
        cases h.2
        have hv := copyFields_unexpZero c v r1.1 r1.2 (by rw [h1])
        have hr := copyElems_unexpZero r1.1 rest r2.1 r2.2 (by rw [h2])
        simp [unexpZeroL, hv, hr]

theorem copyEntries_unexpZero (c : Nat) (en : GoEntries) (c' : Nat)
    (en' : GoEntries) (h : copyEntries c en = .ok (c', en')) :
    unexpZeroE en en' = true := by
  cases en with
  | nil =>
    simp [copyEntries] at h
    cases h.2
    simp [unexpZeroE]
  | cons k v rest =>
    cases h1 : copyFields c k with
    | error p => simp [copyEntries, h1] at h
    | ok r1 =>
      cases h2 : copyFields r1.1 v with
      | error p => simp [copyEntries, h1, h2] at h
      | ok r2 =>
        cases h3 : copyEntries r2.1 rest with
        | error p => simp [copyEntries, h1, h2, h3] at h
        | ok r3 =>
          simp [copyEntries, h1, h2, h3] at h
          cases h.2
          have hk := copyFields_unexpZero c k r1.1 r1.2 (by rw [h1])
          have hv := copyFields_unexpZero r1.1 v r2.1 r2.2 (by rw [h2])
          have hr := copyEntries_unexpZero r2.1 rest r3.1 r3.2 (by rw [h3])
          simp [unexpZeroE, hk, hv, hr]
end

/-- C9: whenever `CloneController` succeeds on a (pointer-to-struct) handler
template, the produced instance is a fresh pointer whose body leaves every
field that fails the `CanSet` guard — every unexported field, at any nesting
depth the cloner traverses (struct nesting, fresh pointees, slice, array and
map entries), of any kind — at the zero value of its type rather than a copy
of the template's field. -/
theorem clone_unexported_fields_zero (c i : Nat) (tmpl : GoVal) (c' : Nat)
    (dst : GoVal) (h : cloneController c (.ptr i tmpl) = .ok (c', some dst)) :
    ∃ body, dst = .ptr c body ∧ unexpZeroV tmpl body = true := by
  cases hm : copyFields (c + 1) tmpl with
  | error p => simp [cloneController, hm] at h
  | ok r =>
    simp [cloneController, hm] at h
    refine ⟨r.2, ?_, ?_⟩
    · exact h.2.symm
    · exact copyFields_unexpZero (c + 1) tmpl r.1 r.2 (by rw [hm])

/-- Witness for `clone_unexported_fields_zero` at a concrete template with
an unexported field: in the clone the unexported field is 0, not 7. -/
theorem clone_unexported_fields_zero_witness :
    ∃ body, (GoVal.ptr 0 (.strukt (.cons false (.int 0) (.cons true (.int 1) .nil))))
        = .ptr 0 body ∧ unexpZeroV unexpTemplate body = true :=
  clone_unexported_fields_zero 0 9 unexpTemplate 1
    (.ptr 0 (.strukt (.cons false (.int 0) (.cons true (.int 1) .nil))))
    (by simp [cloneController, copyFields, copyFieldsList, copyOneField, zeroOf,
      unexpTemplate])

end GoLiteKit
